import Mathlib

/-!
# Verification of the gemini-image-mcp request-handling gateway

Shallow embedding of the repository's core logic:

* `GeminiImageClient.checkRateLimit` (sliding-window rate limiter),
* `GeminiImageClient.parseAnalysisResult` and its sub-extractors
  (`parseObjects`, `parseText`, `parseColors`, `parseEmotions`,
  `parseComprehensive`),
* `GeminiImageClient.extractImagesFromResponse` / `generateImage` /
  `generateBatch` / `applyStyleTransfer`,
* the MCP tool-call dispatcher in `GeminiImageMCPServer.setupTools`.

Modelling conventions:

* JavaScript numbers holding epoch-millisecond timestamps are modelled as
  `Int` (all values involved are far below 2^53, where float arithmetic on
  integers is exact).
* JavaScript `parseInt(..)/100` confidences are modelled as `ℚ`; for the
  order facts proved here (sign and comparison with 1) IEEE-754 division
  by 100 agrees with exact rational division.
* Thrown exceptions are modelled with `Except String`; a `try/catch` block
  becomes a `match` on the `Except` value.
* The remote generative call is an external collaborator; it is modelled by
  the `Except String GeminiResponse` outcome the awaited call produces.
* String scanning is implemented over `List Char` by structural recursion
  (so that concrete inputs evaluate inside the kernel).  JavaScript's `\s`
  and `String.prototype.trim` whitespace classes are modelled by
  `Char.isWhitespace` (space, tab, CR, LF), and `.` never matching a line
  terminator is only relevant for `\n` inside the scanned text; both agree
  with JavaScript on every input considered here.
-/

/-! ## RateLimiter (src `GeminiImageClient.checkRateLimit`, part_001 lines 72-85) -/

/-- Model of `this.requestTimestamps.filter(timestamp => timestamp > oneMinuteAgo)`
with `oneMinuteAgo = now - 60000`. -/
def pruneWindow (now : Int) (ts : List Int) : List Int :=
  List.filter (fun t => decide (now - 60000 < t)) ts

/-- Model of `Math.min(...this.requestTimestamps)` on the pruned sequence.  In the
source the spread is only evaluated when the sequence is non-empty (the
length check guarantees at least `maxReq ≥ 1` elements there); the value on
`[]` (JS `Infinity`) is represented by an unused default. -/
def oldestOf : List Int → Int
  | [] => 0
  | t :: rest => rest.foldl min t

/-- Model of `GeminiImageClient.checkRateLimit`, state-passing form.  Returns
`(some waitTime, newState)` when the check throws the rate-limit error
(carrying `waitTime = 60000 - (now - oldestRequest)`) and
`(none, newState)` when the call is admitted.  In both cases the pruned
sequence persists (the source reassigns `this.requestTimestamps` before the
length check); on admission `now` is appended. -/
def checkRateLimit (maxReq : Nat) (ts : List Int) (now : Int) :
    Option Int × List Int :=
  if maxReq ≤ (pruneWindow now ts).length then
    (some (60000 - (now - oldestOf (pruneWindow now ts))), pruneWindow now ts)
  else
    (none, pruneWindow now ts ++ [now])

/-- Iterate `checkRateLimit` over a sequence of check times, threading the
timestamp state; returns the per-check outcomes and the final state. -/
def runChecks (maxReq : Nat) (st : List Int) : List Int → List (Option Int) × List Int
  | [] => ([], st)
  | t :: rest =>
    let p := checkRateLimit maxReq st t
    let q := runChecks maxReq p.2 rest
    (p.1 :: q.1, q.2)

/-! ## Data model (src `types.ts`, part_000) -/

/-- One entry of `AnalysisResult.objects`. -/
structure ObjectEntry where
  name : String
  confidence : ℚ
  deriving Repr, DecidableEq

/-- One entry of `AnalysisResult.colors`. -/
structure ColorEntry where
  hex : String
  name : String
  percentage : ℚ
  deriving Repr, DecidableEq

/-- One entry of `AnalysisResult.emotions`. -/
structure EmotionEntry where
  emotion : String
  confidence : ℚ
  deriving Repr, DecidableEq

/-- The composite value built by `parseComprehensive`. -/
structure ComprehensiveResult where
  description : String
  objects : List ObjectEntry
  text : List String
  colors : List ColorEntry
  emotions : List EmotionEntry
  tags : List String
  deriving Repr, DecidableEq

/-- Model of `AnalysisResult` (types.ts lines 49-63): every field optional; a field
is "populated" exactly when it is `some`. -/
structure AnalysisResult where
  description : Option String := none
  objects : Option (List ObjectEntry) := none
  text : Option (List String) := none
  colors : Option (List ColorEntry) := none
  emotions : Option (List EmotionEntry) := none
  comprehensive : Option ComprehensiveResult := none
  deriving Repr, DecidableEq

/-- Model of `ImageGenerationOptions` (types.ts lines 1-10); enum-typed fields are
carried as strings exactly as they travel through the untyped tool args. -/
structure ImageGenerationOptions where
  prompt : String
  width : Option Int := none
  height : Option Int := none
  aspectRatio : Option String := none
  style : Option String := none
  quality : Option String := none
  numberOfImages : Option Int := none
  seed : Option Int := none
  deriving Repr, DecidableEq

/-- Model of `ImageModificationOptions` (types.ts lines 12-17). -/
structure ImageModificationOptions where
  imageBase64 : String
  instructions : String
  preserveStyle : Option Bool := none
  strength : Option ℚ := none
  deriving Repr, DecidableEq

/-- Model of `StyleTransferOptions` (types.ts lines 30-34). -/
structure StyleTransferOptions where
  imageBase64 : String
  style : String
  intensity : Option Int := none
  deriving Repr, DecidableEq

/-- Metadata attached to a `GeneratedImage`. -/
structure ImageMetadata where
  prompt : Option String := none
  model : Option String := none
  timestamp : Option String := none
  deriving Repr, DecidableEq

/-- Model of `GeneratedImage` (types.ts lines 36-47). -/
structure GeneratedImage where
  base64 : String
  mimeType : String
  width : Option Int := none
  height : Option Int := none
  metadata : Option ImageMetadata := none
  deriving Repr, DecidableEq

/-- The remote model's response, as far as this core observes it: a text
accessor (the image payload is never actually decoded, see
`extractImagesFromResponse`). -/
structure GeminiResponse where
  text : String := ""
  deriving Repr, DecidableEq

/-! ## ResultParser (src part_001 lines 275-374) -/

/-- JavaScript `text.split('\n')` (keeps empty segments, including a
leading/trailing one). -/
def splitLines : List Char → List (List Char)
  | [] => [[]]
  | c :: rest =>
    if c = '\n' then [] :: splitLines rest
    else
      match splitLines rest with
      | [] => [[c]]
      | l :: ls => (c :: l) :: ls

/-- JavaScript `String.prototype.trim` over characters. -/
def trimChars (cs : List Char) : List Char :=
  ((cs.dropWhile Char.isWhitespace).reverse.dropWhile Char.isWhitespace).reverse

/-- Model of `parseInt` on the non-empty all-digit strings produced by the regex
digit groups (exact, where JS would round above 2^53 — irrelevant to the
sign/order facts proved here). -/
def parseIntDigits (ds : List Char) : Nat :=
  ds.foldl (fun a c => a * 10 + (c.toNat - 48)) 0

/-- Match `\s*(\d+)%` against the characters following a candidate colon:
skip the maximal whitespace run, then require a maximal non-empty digit run
immediately followed by `%`.  Whitespace and digit characters are disjoint
and a shortened digit run is followed by a digit, so regex backtracking can
never produce any other outcome; this deterministic scan is equivalent. -/
def matchPercentTail (cs : List Char) : Option (List Char) :=
  let rest := cs.dropWhile Char.isWhitespace
  let digits := rest.takeWhile Char.isDigit
  if digits.isEmpty then none
  else
    match rest.drop digits.length with
    | '%' :: _ => some digits
    | _ => none

/-- First match of `/(.+?):\s*(\d+)%/` in a line, as (group 1, group 2).
Earliest-start plus lazy `.+?` semantics reduce to: the name group ends at
the first colon at index ≥ 1 whose suffix matches `\s*(\d+)%`, and group 1
is everything before that colon.  `pre` accumulates the characters before
the current position in reverse. -/
def findObjMatch : List Char → List Char → Option (List Char × List Char)
  | _, [] => none
  | pre, c :: rest =>
    if c = ':' ∧ pre ≠ [] then
      match matchPercentTail rest with
      | some d => some (pre.reverse, d)
      | none => findObjMatch (c :: pre) rest
    else
      findObjMatch (c :: pre) rest

/-- Model of `GeminiImageClient.parseObjects` (part_001 lines 308-324): scan each
line for `name: NN%`; confidence is `parseInt(NN) / 100`. -/
def parseObjects (text : String) : List ObjectEntry :=
  (splitLines text.toList).filterMap (fun line =>
    (findObjMatch [] line).map (fun m =>
      { name := String.mk (trimChars m.1)
        confidence := (parseIntDigits m.2 : ℚ) / 100 }))

/-- Model of `GeminiImageClient.parseText` (part_001 lines 326-328): keep non-blank
lines verbatim. -/
def parseText (text : String) : List String :=
  ((splitLines text.toList).filter (fun l => decide (trimChars l ≠ []))).map String.mk

/-- Character class `[0-9A-Fa-f]`. -/
def isHexDigitChar (c : Char) : Bool :=
  c.isDigit || ('a' ≤ c && c ≤ 'f') || ('A' ≤ c && c ≤ 'F')

/-- All matches of the global regex `/#[0-9A-Fa-f]{6}/g`: scan left to
right; on a match consume the seven matched characters (no overlap), else
advance one character.  `skip` counts characters still belonging to the
previous match. -/
def scanHexAux : Nat → List Char → List String
  | _, [] => []
  | Nat.succ k, _ :: rest => scanHexAux k rest
  | 0, c :: rest =>
    if c = '#' && (rest.take 6).length = 6 && (rest.take 6).all isHexDigitChar then
      String.mk ('#' :: rest.take 6) :: scanHexAux 6 rest
    else
      scanHexAux 0 rest

/-- Entry point of the hex-color scan. -/
def scanHexColors (cs : List Char) : List String := scanHexAux 0 cs

/-- Model of `GeminiImageClient.parseColors` (part_001 lines 330-345): each hex code
found yields an entry with placeholder name "Unknown" and percentage 0. -/
def parseColors (text : String) : List ColorEntry :=
  (scanHexColors text.toList).map (fun h =>
    { hex := h, name := "Unknown", percentage := 0 })

/-- The fixed emotion vocabulary of `parseEmotions`. -/
def emotionVocab : List String :=
  ["happy", "sad", "angry", "surprised", "fear", "disgust", "neutral"]

/-- Match `(\d+)%` at the first position at or after the current one that a
lazy `.*?` gap can reach; the gap cannot cross `\n` (JS `.` does not match
line terminators).  Positions inside a failed digit run fail as well, so
advancing one character at a time is equivalent to regex backtracking. -/
def findDigitsPercent : List Char → Option (List Char)
  | [] => none
  | c :: rest =>
    if c.isDigit then
      match (c :: rest).drop ((c :: rest).takeWhile Char.isDigit).length with
      | '%' :: _ => some ((c :: rest).takeWhile Char.isDigit)
      | _ => findDigitsPercent rest
    else if c = '\n' then none
    else findDigitsPercent rest

/-- ASCII case-insensitive character comparison (the `i` flag; the
vocabulary is ASCII). -/
def charLowerEq (a b : Char) : Bool := a.toLower = b.toLower

/-- Does the haystack start with the pattern, case-insensitively? -/
def seqStartsWithCI : List Char → List Char → Bool
  | _, [] => true
  | [], _ :: _ => false
  | c :: cs, p :: ps => charLowerEq c p && seqStartsWithCI cs ps

/-- First match of `/<word>.*?(\d+)%/i` over the text: earliest
case-insensitive occurrence of the word from which an integer-percent is
reachable on the same line; returns that digit group. -/
def searchEmotionAux (pat : List Char) : List Char → Option (List Char)
  | [] => none
  | c :: rest =>
    if seqStartsWithCI (c :: rest) pat then
      match findDigitsPercent ((c :: rest).drop pat.length) with
      | some d => some d
      | none => searchEmotionAux pat rest
    else
      searchEmotionAux pat rest

/-- Model of `GeminiImageClient.parseEmotions` (part_001 lines 347-363). -/
def parseEmotions (text : String) : List EmotionEntry :=
  emotionVocab.filterMap (fun e =>
    (searchEmotionAux e.toList text.toList).map (fun d =>
      { emotion := e, confidence := (parseIntDigits d : ℚ) / 100 }))

/-- Model of `GeminiImageClient.parseComprehensive` (part_001 lines 365-374):
wraps the raw text with empty placeholder collections. -/
def parseComprehensive (text : String) : ComprehensiveResult :=
  { description := text, objects := [], text := [], colors := [], emotions := [], tags := [] }

/-- The `try` block of `GeminiImageClient.parseAnalysisResult` (part_001
lines 275-306): a switch on `analysisType` populating exactly one field.
Exceptions are modelled by `Except String`; every operation reachable from
the block is total, so every branch is `.ok`. -/
def parseAnalysisResultTry (text analysisType : String) : Except String AnalysisResult :=
  match analysisType with
  | "description" => .ok { description := some text }
  | "objects" => .ok { objects := some (parseObjects text) }
  | "text" => .ok { text := some (parseText text) }
  | "colors" => .ok { colors := some (parseColors text) }
  | "emotions" => .ok { emotions := some (parseEmotions text) }
  | "comprehensive" => .ok { comprehensive := some (parseComprehensive text) }
  | _ => .ok { description := some text }

/-- The `catch` handler of `parseAnalysisResult`: fall back to the raw text
as the description. -/
def parseFallback (text : String) : Except String AnalysisResult → AnalysisResult
  | .ok r => r
  | .error _ => { description := some text }

/-- Model of `GeminiImageClient.parseAnalysisResult`: the try block guarded by the
raw-text fallback. -/
def parseAnalysisResult (text analysisType : String) : AnalysisResult :=
  parseFallback text (parseAnalysisResultTry text analysisType)

/-- The names of the populated (`some`) field groups of an
`AnalysisResult`, in declaration order. -/
def populatedFields (r : AnalysisResult) : List String :=
  (if r.description.isSome then ["description"] else []) ++
  (if r.objects.isSome then ["objects"] else []) ++
  (if r.text.isSome then ["text"] else []) ++
  (if r.colors.isSome then ["colors"] else []) ++
  (if r.emotions.isSome then ["emotions"] else []) ++
  (if r.comprehensive.isSome then ["comprehensive"] else [])

/-- The field group an `analysisType` selects ("description" also for
unrecognized types, mirroring the switch's default branch). -/
def fieldForType (ty : String) : String :=
  match ty with
  | "objects" => "objects"
  | "text" => "text"
  | "colors" => "colors"
  | "emotions" => "emotions"
  | "comprehensive" => "comprehensive"
  | _ => "description"

/-! ## ImageOperationsClient (src part_001 lines 87-273) -/

/-- The fixed base64 payload of the mock image built by
`extractImagesFromResponse`. -/
def mockBase64 : String :=
  "data:image/png;base64,iVBORw0KGgoAAAANSUhEUgAAAAEAAAABCAYAAAAfFcSJAAAADUlEQVR42mNkYPhfDwAChwGA60e6kgAAAABJRU5ErkJggg=="

/-- The single mock `GeneratedImage` (part_001 lines 257-265). -/
def mkMockImage (prompt modelId timestamp : String) : GeneratedImage :=
  { base64 := mockBase64
    mimeType := "image/png"
    metadata := some { prompt := some prompt, model := some modelId, timestamp := some timestamp } }

/-- Model of `GeminiImageClient.extractImagesFromResponse` (part_001 lines 247-273):
ignores the response entirely and returns the one mock image; the inner
try/catch cannot fire (every operation is total). -/
def extractImagesFromResponse (_response : GeminiResponse)
    (prompt modelId timestamp : String) : List GeneratedImage :=
  [mkMockImage prompt modelId timestamp]

/-- The message of the rate-limit error
(`Math.ceil(waitTime / 1000)` is floor((w + 999) / 1000)). -/
def rateLimitMessage (waitTime : Int) : String :=
  "Rate limit exceeded. Please wait " ++ toString (Int.fdiv (waitTime + 999) 1000) ++ " seconds."

/-- Model of `GeminiImageClient.generateImage` (part_001 lines 87-107), state-passing:
admission check first (its rejection escapes unwrapped), then the remote
call (abstracted by its outcome `remote`; prompt building has no effect on
the result because `extractImagesFromResponse` ignores the response), with
any failure inside the try block re-thrown as "Image generation failed: ...". -/
def generateImage (maxReq : Nat) (st : List Int) (now : Int)
    (opts : ImageGenerationOptions) (remote : Except String GeminiResponse)
    (modelId timestamp : String) : Except String (List GeneratedImage) × List Int :=
  match checkRateLimit maxReq st now with
  | (some waitTime, st') => (.error (rateLimitMessage waitTime), st')
  | (none, st') =>
    match remote with
    | .error e => (.error ("Image generation failed: " ++ e), st')
    | .ok resp => (.ok (extractImagesFromResponse resp opts.prompt modelId timestamp), st')

/-- The per-call environment of one batched generation: the clock value of
its admission check and the outcome of its remote call. -/
structure CallCtx where
  now : Int
  remote : Except String GeminiResponse
  timestamp : String

/-- Model of `Omit<ImageGenerationOptions, 'prompt'>`, the `baseOptions` field of
`BatchGenerationOptions` (types.ts lines 25-28). -/
structure BatchBaseOptions where
  width : Option Int := none
  height : Option Int := none
  aspectRatio : Option String := none
  style : Option String := none
  quality : Option String := none
  numberOfImages : Option Int := none
  seed : Option Int := none
  deriving Repr, DecidableEq

/-- Model of `{...options.baseOptions, prompt}` (part_001 lines 181-184). -/
def mkGenOptions (base : Option BatchBaseOptions) (p : String) : ImageGenerationOptions :=
  match base with
  | none => { prompt := p }
  | some b =>
    { prompt := p, width := b.width, height := b.height, aspectRatio := b.aspectRatio
      style := b.style, quality := b.quality, numberOfImages := b.numberOfImages, seed := b.seed }

/-- Model of `GeminiImageClient.generateBatch` (part_001 lines 177-191): sequential
fan-out over the prompts, threading the rate-limiter state; the call at
index `i` runs in environment `ctx i`.  The third component is the trace of
prompts actually handed to the single-prompt path (in invocation order); a
failing call ends the loop with its error and no images. -/
def generateBatch (maxReq : Nat) (st : List Int) (base : Option BatchBaseOptions)
    (modelId : String) (prompts : List String) (ctx : Nat → CallCtx) :
    Except String (List GeneratedImage) × List Int × List String :=
  match prompts with
  | [] => (.ok [], st, [])
  | p :: rest =>
    match generateImage maxReq st (ctx 0).now (mkGenOptions base p) (ctx 0).remote
        modelId (ctx 0).timestamp with
    | (.error e, st') => (.error e, st', [p])
    | (.ok imgs, st') =>
      match generateBatch maxReq st' base modelId rest (fun n => ctx (n + 1)) with
      | (.error e, st'', tr) => (.error e, st'', p :: tr)
      | (.ok more, st'', tr) => (.ok (imgs ++ more), st'', p :: tr)

/-- One mock image per prompt, tagged with the timestamp of its own call:
the expected successful batch output. -/
def mockTraceImages (modelId : String) (ctx : Nat → CallCtx) : List String → List GeneratedImage
  | [] => []
  | p :: rest =>
    mkMockImage p modelId (ctx 0).timestamp ::
      mockTraceImages modelId (fun n => ctx (n + 1)) rest

/-- The intensity clause of `applyStyleTransfer`'s template literal.  The
conditional is JS truthiness: `undefined` and `0` both select the empty
clause. -/
def intensityClause (intensity : Option Int) : String :=
  match intensity with
  | some i => if i = 0 then "" else "Use " ++ toString i ++ "% intensity for the style transfer."
  | none => ""

/-- The synthesized modification instruction of `applyStyleTransfer`
(part_001 lines 194-196). -/
def styleTransferInstructions (style : String) (intensity : Option Int) : String :=
  "Apply " ++ style ++ " style to this image. " ++ intensityClause intensity

/-- Model of `GeminiImageClient.applyStyleTransfer` (part_001 lines 193-203),
modelled by the `ImageModificationOptions` it constructs and passes to
`modifyImage` (the delegation is unconditional; `preserveStyle` is set
explicitly to `false`). -/
def applyStyleTransfer (opts : StyleTransferOptions) : ImageModificationOptions :=
  { imageBase64 := opts.imageBase64
    instructions := styleTransferInstructions opts.style opts.intensity
    preserveStyle := some false }

/-- Does the haystack start with the pattern? -/
def seqStartsWith : List Char → List Char → Bool
  | _, [] => true
  | [], _ :: _ => false
  | c :: cs, p :: ps => (c = p : Bool) && seqStartsWith cs ps

/-- Contiguous-substring test (JS `String.prototype.includes`). -/
def seqContains : List Char → List Char → Bool
  | [], needle => needle.isEmpty
  | c :: cs, needle => seqStartsWith (c :: cs) needle || seqContains cs needle

/-- Whether `s` contains `sub` as a contiguous substring. -/
def strContains (s sub : String) : Bool := seqContains s.data sub.data

/-! ## ToolGateway (src `index.ts`, `GeminiImageMCPServer.setupTools`) -/

/-- One item of a response envelope's `content` array. -/
structure ContentItem where
  type : String
  text : Option String := none
  data : Option String := none
  mimeType : Option String := none
  deriving Repr, DecidableEq

/-- The MCP response envelope: content items plus the error flag. -/
structure ToolResponse where
  content : List ContentItem
  isError : Bool := false
  deriving Repr, DecidableEq

/-- The awaited outcomes of the five per-tool handlers (each may reject
with an error message; the handlers call into `GeminiImageClient`). -/
structure ToolHandlers where
  generateImage : Except String ToolResponse
  modifyImage : Except String ToolResponse
  analyzeImage : Except String ToolResponse
  batchGenerate : Except String ToolResponse
  applyStyleTransfer : Except String ToolResponse

/-- The five tool names of the static catalogue returned for
`ListToolsRequestSchema` (index.ts lines 64-207). -/
def toolCatalogue : List String :=
  ["generateImage", "modifyImage", "analyzeImage", "batchGenerate", "applyStyleTransfer"]

/-- The `switch (name)` of the `CallToolRequestSchema` handler (index.ts
lines 210-232); the default branch throws `Unknown tool: ...`. -/
def dispatchTool (name : String) (h : ToolHandlers) : Except String ToolResponse :=
  if name = "generateImage" then h.generateImage
  else if name = "modifyImage" then h.modifyImage
  else if name = "analyzeImage" then h.analyzeImage
  else if name = "batchGenerate" then h.batchGenerate
  else if name = "applyStyleTransfer" then h.applyStyleTransfer
  else .error ("Unknown tool: " ++ name)

/-- The catch-all error envelope (index.ts lines 233-244). -/
def errorEnvelope (msg : String) : ToolResponse :=
  { content := [{ type := "text", text := some ("Error: " ++ msg) }], isError := true }

/-- The full `CallToolRequestSchema` handler: dispatch guarded by the
catch-all that renders every failure as an error-flagged envelope. -/
def handleCallTool (name : String) (h : ToolHandlers) : ToolResponse :=
  match dispatchTool name h with
  | .ok r => r
  | .error msg => errorEnvelope msg

/-! ## Theorems -/

lemma pruneWindow_eq_self (now : Int) (ts : List Int)
    (h : ∀ x ∈ ts, now - 60000 < x) : pruneWindow now ts = ts := by
  unfold pruneWindow
  exact List.filter_eq_self.mpr (fun a ha => decide_eq_true (h a ha))

lemma pruneWindow_eq_nil (now : Int) (ts : List Int)
    (h : ∀ x ∈ ts, x ≤ now - 60000) : pruneWindow now ts = [] := by
  unfold pruneWindow
  exact List.filter_eq_nil_iff.mpr (fun a ha => by simpa using h a ha)

lemma lt_of_mem_pruneWindow {now x : Int} {ts : List Int}
    (h : x ∈ pruneWindow now ts) : now - 60000 < x := by
  unfold pruneWindow at h
  exact of_decide_eq_true (List.mem_filter.mp h).2

lemma checkRateLimit_admit (maxReq : Nat) (ts : List Int) (now : Int)
    (hin : ∀ x ∈ ts, now - 60000 < x) (hlen : ts.length < maxReq) :
    checkRateLimit maxReq ts now = (none, ts ++ [now]) := by
  unfold checkRateLimit
  rw [pruneWindow_eq_self now ts hin]
  rw [if_neg (by omega)]

lemma checkRateLimit_reject (maxReq : Nat) (ts : List Int) (now : Int)
    (hin : ∀ x ∈ ts, now - 60000 < x) (hlen : maxReq ≤ ts.length) :
    checkRateLimit maxReq ts now = (some (60000 - (now - oldestOf ts)), ts) := by
  unfold checkRateLimit
  rw [pruneWindow_eq_self now ts hin]
  rw [if_pos hlen]

lemma foldl_min_of_le (a : Int) (l : List Int) (h : ∀ x ∈ l, a ≤ x) :
    l.foldl min a = a := by
  induction l generalizing a with
  | nil => rfl
  | cons x xs ih =>
    have hax : min a x = a := min_eq_left (h x (by simp))
    simpa [hax] using ih a (fun y hy => h y (by simp [hy]))

lemma oldestOf_cons_of_le (t : Int) (rest : List Int)
    (h : ∀ x ∈ rest, t ≤ x) : oldestOf (t :: rest) = t := by
  simpa [oldestOf] using foldl_min_of_le t rest h

/-- All checks in `times` are admitted when the whole run stays inside the
60-second window of each check time and capacity is never exceeded. -/
lemma runChecks_all_admit (maxReq : Nat) (st times : List Int)
    (h : ∀ t ∈ times, ∀ x ∈ st ++ times, t - 60000 < x)
    (hlen : st.length + times.length ≤ maxReq) :
    runChecks maxReq st times = (times.map (fun _ => none), st ++ times) := by
  induction times generalizing st with
  | nil => simp [runChecks]
  | cons t rest ih =>
    have hadm : checkRateLimit maxReq st t = (none, st ++ [t]) := by
      refine checkRateLimit_admit maxReq st t (fun x hx => ?_) (by simp at hlen; omega)
      exact h t (by simp) x (List.mem_append_left _ hx)
    have hrec : runChecks maxReq (st ++ [t]) rest
        = (rest.map (fun _ => none), (st ++ [t]) ++ rest) := by
      refine ih (st ++ [t]) (fun u hu x hx => ?_) (by simp at hlen ⊢; omega)
      refine h u (by simp [hu]) x ?_
      simpa [List.append_assoc] using hx
    simp only [runChecks, hadm, hrec]
    simp [List.append_assoc]

/-- C1: Starting from any limiter state whose recorded timestamps are all
at least 60 s older than the first check (in particular the empty state),
with max-per-minute `N = (t0 :: rest).length`: the first `N` admission
checks at times `t0 :: rest` all succeed, each appending its current time,
so in particular the `N`-th succeeds; the `(N+1)`-th check at `tN` (still
inside the 60-second window opened at `t0`) fails with
`retryAfterMs = 60000 - (tN - t0)` where `t0` is the oldest remaining
timestamp, and that value is strictly positive. -/
theorem rateLimiter_nth_admits_next_rejects
    (N : Nat) (st0 : List Int) (t0 tN : Int) (rest : List Int)
    (hstale : ∀ x ∈ st0, x ≤ t0 - 60000)
    (hlen : (t0 :: rest).length = N)
    (hbound : ∀ x ∈ t0 :: rest, t0 ≤ x ∧ x ≤ tN)
    (hwin : tN - t0 < 60000) :
    runChecks N st0 (t0 :: rest) = ((t0 :: rest).map (fun _ => none), t0 :: rest) ∧
    checkRateLimit N (t0 :: rest) tN = (some (60000 - (tN - t0)), t0 :: rest) ∧
    0 < 60000 - (tN - t0) := by
  have hN1 : N = rest.length + 1 := by simpa using hlen.symm
  have hall : ∀ x ∈ t0 :: rest, tN - 60000 < x := by
    intro x hx
    have h1 := (hbound x hx).1
    omega
  refine ⟨?_, ?_, by omega⟩
  · -- first check: stale state is pruned away, t0 is appended
    have hnil : pruneWindow t0 st0 = [] := pruneWindow_eq_nil t0 st0 hstale
    have hneg : ¬ (N ≤ (pruneWindow t0 st0).length) := by
      rw [hnil]
      simp only [List.length_nil, Nat.le_zero]
      omega
    have h0 : checkRateLimit N st0 t0 = (none, [t0]) := by
      unfold checkRateLimit
      rw [if_neg hneg, hnil]
      rfl
    have hlen2 : ([t0] : List Int).length + rest.length ≤ N := by
      simp only [List.length_cons, List.length_nil]
      omega
    have hrest : runChecks N [t0] rest = (rest.map (fun _ => none), [t0] ++ rest) := by
      refine runChecks_all_admit N [t0] rest (fun u hu x hx => ?_) hlen2
      have hx' : x ∈ t0 :: rest := by simpa using hx
      have h1 := (hbound x hx').1
      have h2 := (hbound u (List.mem_cons_of_mem _ hu)).2
      omega
    simp only [runChecks, h0, hrest]
    simp
  · -- (N+1)-th check: the full window is retained, min is t0
    have hmin : oldestOf (t0 :: rest) = t0 :=
      oldestOf_cons_of_le t0 rest (fun x hx => (hbound x (List.mem_cons_of_mem _ hx)).1)
    have hge : N ≤ (t0 :: rest).length := by
      simp only [List.length_cons]
      omega
    rw [checkRateLimit_reject N (t0 :: rest) tN hall hge, hmin]

/-- Witness for C1 at `N = 2`, checks at times 0, 30 and rejection at 59. -/
theorem rateLimiter_nth_admits_next_rejects_witness :
    runChecks 2 [] [0, 30] = ([none, none], [0, 30]) ∧
    checkRateLimit 2 [0, 30] 59 = (some (60000 - (59 - 0)), [0, 30]) ∧
    0 < 60000 - ((59 : Int) - 0) := by
  have h := rateLimiter_nth_admits_next_rejects 2 [] 0 59 [30]
    (by intro x hx; simp at hx) rfl (by decide) (by decide)
  simpa using h

/-- C3: (a) After every admission check — admitting or rejecting — the
timestamp sequence holds only timestamps strictly newer than
`now - 60000` (hence nothing older than 60000 ms relative to the check's
current time).  (b) A check performed more than 60 s after the most recent
recorded call (`m + 60000 < now` for an upper bound `m` of the recorded
timestamps) always succeeds whenever the configured maximum is at least 1,
regardless of how full the prior window was. -/
theorem rateLimiter_window_invariant (maxReq : Nat) (ts : List Int) (now : Int) :
    (∀ x ∈ (checkRateLimit maxReq ts now).2, now - 60000 < x) ∧
    (∀ m : Int, 1 ≤ maxReq → (∀ x ∈ ts, x ≤ m) → m + 60000 < now →
      (checkRateLimit maxReq ts now).1 = none) := by
  constructor
  · intro x hx
    have hmem : x ∈ pruneWindow now ts ∨ x = now := by
      unfold checkRateLimit at hx
      by_cases h : maxReq ≤ (pruneWindow now ts).length
      · rw [if_pos h] at hx
        exact Or.inl hx
      · rw [if_neg h] at hx
        simpa using hx
    rcases hmem with h | h
    · exact lt_of_mem_pruneWindow h
    · omega
  · intro m h1 hm hnow
    have hnil : pruneWindow now ts = [] :=
      pruneWindow_eq_nil now ts (fun x hx => by have := hm x hx; omega)
    have hneg : ¬ (maxReq ≤ (pruneWindow now ts).length) := by
      rw [hnil]
      simp only [List.length_nil, Nat.le_zero]
      omega
    unfold checkRateLimit
    rw [if_neg hneg]

/-- Witness for C3: a window with one stale call admits again after 60 s,
and the resulting state only holds in-window timestamps. -/
theorem rateLimiter_window_invariant_witness :
    (checkRateLimit 10 [5] 100000).1 = none ∧
    (∀ x ∈ (checkRateLimit 10 [5] 100000).2, (100000 : Int) - 60000 < x) :=
  ⟨(rateLimiter_window_invariant 10 [5] 100000).2 5 (by decide)
      (by intro x hx; simp at hx; omega) (by decide),
   (rateLimiter_window_invariant 10 [5] 100000).1⟩

lemma parseTry_isOk (text ty : String) : ∃ r, parseAnalysisResultTry text ty = Except.ok r := by
  unfold parseAnalysisResultTry
  split <;> exact ⟨_, rfl⟩

/-- C2: The parser never fails: for every raw text and every
`analysisType` (recognized or not) the try block completes normally with
exactly the `AnalysisResult` the function returns — no internal extraction
step can raise; and the catch handler maps any hypothetical extraction
error to a result carrying the raw input text as its description. -/
theorem parseAnalysisResult_never_fails (text ty : String) :
    parseAnalysisResultTry text ty = Except.ok (parseAnalysisResult text ty) ∧
    (∀ e : String, parseFallback text (Except.error e) = { description := some text }) := by
  refine ⟨?_, fun e => rfl⟩
  obtain ⟨r, hr⟩ := parseTry_isOk text ty
  unfold parseAnalysisResult
  rw [hr]
  rfl

/-- C6: Every parse result has exactly one populated field group: the
one selected by the requested `analysisType` (description for
"description" and for unrecognized types, the matching collection for
"objects"/"text"/"colors"/"emotions", and for "comprehensive" only the
composite field, the other five remaining absent). -/
theorem parse_populates_exactly_requested (text ty : String) :
    populatedFields (parseAnalysisResult text ty) = [fieldForType ty] := by
  unfold parseAnalysisResult parseAnalysisResultTry fieldForType
  split <;> first
    | rfl
    | (split <;> first
        | rfl
        | simp_all)

/-- C7 (amended): Every confidence produced by the objects and emotions
extractors is a nonnegative rational of the form (matched integer)/100.
It is *not* guaranteed to be at most 1: the upper bound holds only when
every percentage integer occurring in the text is at most 100 (see the
counterexample `parseObjects_confidence_above_one`). -/
theorem parse_confidence_nonneg (text : String) :
    (∀ e ∈ parseObjects text, 0 ≤ e.confidence ∧ ∃ k : ℕ, e.confidence = (k : ℚ) / 100) ∧
    (∀ e ∈ parseEmotions text, 0 ≤ e.confidence ∧ ∃ k : ℕ, e.confidence = (k : ℚ) / 100) := by
  constructor
  · intro e he
    unfold parseObjects at he
    obtain ⟨line, -, hline⟩ := List.mem_filterMap.mp he
    obtain ⟨m, -, hm⟩ := Option.map_eq_some'.mp hline
    rw [← hm]
    refine ⟨?_, ⟨parseIntDigits m.2, rfl⟩⟩
    show (0 : ℚ) ≤ (parseIntDigits m.2 : ℚ) / 100
    positivity
  · intro e he
    unfold parseEmotions at he
    obtain ⟨w, -, hw⟩ := List.mem_filterMap.mp he
    obtain ⟨d, -, hd⟩ := Option.map_eq_some'.mp hw
    rw [← hd]
    refine ⟨?_, ⟨parseIntDigits d, rfl⟩⟩
    show (0 : ℚ) ≤ (parseIntDigits d : ℚ) / 100
    positivity

/-- Counterexample to C7 as stated: on raw text "cat: 250%" the objects
extractor yields confidence 250/100, which is not in [0, 1]. -/
theorem parseObjects_confidence_above_one :
    (parseObjects "cat: 250%").map ObjectEntry.confidence = [((250 : ℕ) : ℚ) / 100] ∧
    ¬ (((250 : ℕ) : ℚ) / 100 ≤ 1) := by
  refine ⟨rfl, ?_⟩
  push_cast
  norm_num

/-- Witness for the amended C7 at the input "cat: 85%". -/
theorem parse_confidence_nonneg_witness :
    0 ≤ ((85 : ℕ) : ℚ) / 100 ∧ ∃ k : ℕ, ((85 : ℕ) : ℚ) / 100 = (k : ℚ) / 100 := by
  have hmem : ({ name := "cat", confidence := ((85 : ℕ) : ℚ) / 100 } : ObjectEntry)
      ∈ parseObjects "cat: 85%" := by
    have h : parseObjects "cat: 85%"
        = [{ name := "cat", confidence := ((85 : ℕ) : ℚ) / 100 }] := rfl
    rw [h]
    exact List.mem_singleton.mpr rfl
  simpa using (parse_confidence_nonneg "cat: 85%").1 _ hmem

lemma mkGenOptions_prompt (base : Option BatchBaseOptions) (p : String) :
    (mkGenOptions base p).prompt = p := by
  cases base <;> rfl

/-- A successful `generateImage` call returns exactly the one mock image. -/
lemma generateImage_ok_elim (maxReq : Nat) (st : List Int) (now : Int)
    (opts : ImageGenerationOptions) (remote : Except String GeminiResponse)
    (modelId timestamp : String) (imgs : List GeneratedImage) (st' : List Int)
    (h : generateImage maxReq st now opts remote modelId timestamp = (.ok imgs, st')) :
    imgs = [mkMockImage opts.prompt modelId timestamp] := by
  unfold generateImage at h
  rcases hc : checkRateLimit maxReq st now with ⟨r, st''⟩
  rw [hc] at h
  cases r with
  | some w => simp at h
  | none =>
    cases remote with
    | error e => simp at h
    | ok resp =>
      simp [extractImagesFromResponse] at h
      exact h.1.symm

/-- C9: When the admission check succeeds and the remote call returns,
`generateImage` returns exactly one image — the fixed mock payload with
MIME type image/png — regardless of the request's `numberOfImages` field
(universally quantified inside `opts`) and of the response's content
(universally quantified `resp`). -/
theorem generateImage_returns_single_mock
    (maxReq : Nat) (st : List Int) (now : Int) (opts : ImageGenerationOptions)
    (resp : GeminiResponse) (modelId timestamp : String)
    (hnone : (checkRateLimit maxReq st now).1 = none) :
    (generateImage maxReq st now opts (Except.ok resp) modelId timestamp).1
      = Except.ok [mkMockImage opts.prompt modelId timestamp] ∧
    (mkMockImage opts.prompt modelId timestamp).base64 = mockBase64 ∧
    (mkMockImage opts.prompt modelId timestamp).mimeType = "image/png" := by
  refine ⟨?_, rfl, rfl⟩
  have h : checkRateLimit maxReq st now = (none, (checkRateLimit maxReq st now).2) :=
    Prod.ext hnone rfl
  unfold generateImage
  rw [h]
  rfl

/-- Witness for C9 at a concrete admitted call. -/
theorem generateImage_returns_single_mock_witness :
    (generateImage 10 [] 0 { prompt := "a", numberOfImages := some 4 }
        (Except.ok ⟨"whatever"⟩) "m" "T").1
      = Except.ok [mkMockImage "a" "m" "T"] ∧
    (mkMockImage "a" "m" "T").base64 = mockBase64 ∧
    (mkMockImage "a" "m" "T").mimeType = "image/png" :=
  generateImage_returns_single_mock 10 [] 0 { prompt := "a", numberOfImages := some 4 }
    ⟨"whatever"⟩ "m" "T" rfl

/-- C4: `generateBatch` invokes the single-prompt path once per prompt
in input order.  If every call succeeds, the trace of invoked prompts is
exactly the input list and the result is the concatenation, in prompt
order, of each call's (single mock) image.  If some call fails, the
returned value is that failure with no images, and the trace is a
non-empty strict-or-full prefix of the prompts: the failing prompt was
attempted, no later one was. -/
theorem generateBatch_sequential (maxReq : Nat) (st : List Int)
    (base : Option BatchBaseOptions) (modelId : String)
    (prompts : List String) (ctx : Nat → CallCtx) :
    (∀ imgs st' tr,
       generateBatch maxReq st base modelId prompts ctx = (.ok imgs, st', tr) →
       tr = prompts ∧ imgs = mockTraceImages modelId ctx prompts) ∧
    (∀ e st' tr,
       generateBatch maxReq st base modelId prompts ctx = (.error e, st', tr) →
       tr ≠ [] ∧ tr = prompts.take tr.length ∧ tr.length ≤ prompts.length) := by
  induction prompts generalizing st ctx with
  | nil =>
    constructor
    · intro imgs st' tr h
      simp only [generateBatch, Prod.mk.injEq, Except.ok.injEq] at h
      exact ⟨h.2.2.symm, by rw [← h.1]; rfl⟩
    · intro e st' tr h
      simp [generateBatch] at h
  | cons p rest ih =>
    constructor
    · intro imgs st' tr h
      unfold generateBatch at h
      rcases hg : generateImage maxReq st (ctx 0).now (mkGenOptions base p) (ctx 0).remote
          modelId (ctx 0).timestamp with ⟨gres, st1⟩
      rw [hg] at h
      cases gres with
      | error e0 => simp at h
      | ok imgs0 =>
        dsimp only at h
        rcases hb : generateBatch maxReq st1 base modelId rest (fun n => ctx (n + 1))
          with ⟨bres, st2, tr2⟩
        rw [hb] at h
        cases bres with
        | error e0 => simp at h
        | ok more =>
          simp only [Prod.mk.injEq, Except.ok.injEq] at h
          obtain ⟨h1, -, h3⟩ := h
          have hI := (ih st1 (fun n => ctx (n + 1))).1 more st2 tr2 hb
          have h0 : imgs0 = [mkMockImage p modelId (ctx 0).timestamp] := by
            have := generateImage_ok_elim maxReq st (ctx 0).now (mkGenOptions base p)
              (ctx 0).remote modelId (ctx 0).timestamp imgs0 st1 hg
            rwa [mkGenOptions_prompt] at this
          constructor
          · rw [← h3, hI.1]
          · rw [← h1, h0, hI.2]
            rfl
    · intro e st' tr h
      unfold generateBatch at h
      rcases hg : generateImage maxReq st (ctx 0).now (mkGenOptions base p) (ctx 0).remote
          modelId (ctx 0).timestamp with ⟨gres, st1⟩
      rw [hg] at h
      cases gres with
      | error e0 =>
        simp only [Prod.mk.injEq, Except.error.injEq] at h
        obtain ⟨-, -, h3⟩ := h
        refine ⟨by rw [← h3]; simp, ?_, ?_⟩ <;> rw [← h3] <;> simp
      | ok imgs0 =>
        dsimp only at h
        rcases hb : generateBatch maxReq st1 base modelId rest (fun n => ctx (n + 1))
          with ⟨bres, st2, tr2⟩
        rw [hb] at h
        cases bres with
        | ok more => simp at h
        | error e0 =>
          simp only [Prod.mk.injEq, Except.error.injEq] at h
          obtain ⟨-, -, h3⟩ := h
          have hI := (ih st1 (fun n => ctx (n + 1))).2 e0 st2 tr2 hb
          refine ⟨by rw [← h3]; simp, ?_, ?_⟩
          · rw [← h3]
            simp only [List.length_cons, List.take_succ_cons]
            rw [← hI.2.1]
          · rw [← h3]
            simp only [List.length_cons]
            exact Nat.succ_le_succ hI.2.2

/-- Witness for C4: three prompts with max-per-minute 1 and all calls at the
same instant — the second call is rate-limited, the third never runs. -/
theorem generateBatch_sequential_witness :
    (["a", "b"] : List String) ≠ [] ∧
    (["a", "b"] : List String) = (["a", "b", "c"] : List String).take (["a", "b"] : List String).length ∧
    (["a", "b"] : List String).length ≤ (["a", "b", "c"] : List String).length := by
  have h : generateBatch 1 [] none "m" ["a", "b", "c"] (fun _ => ⟨0, Except.ok ⟨""⟩, "T"⟩)
      = (.error (rateLimitMessage 60000), [0], ["a", "b"]) := rfl
  exact (generateBatch_sequential 1 [] none "m" ["a", "b", "c"]
    (fun _ => ⟨0, Except.ok ⟨""⟩, "T"⟩)).2 (rateLimitMessage 60000) [0] ["a", "b"] h

lemma seqStartsWith_self_append (n rest : List Char) :
    seqStartsWith (n ++ rest) n = true := by
  induction n with
  | nil => cases rest <;> rfl
  | cons c cs ih => simp [seqStartsWith, ih]

lemma seqContains_needle_nil (hs : List Char) : seqContains hs [] = true := by
  cases hs <;> simp [seqContains, seqStartsWith, List.isEmpty]

lemma seqContains_of_middle (pre n suf : List Char) :
    seqContains (pre ++ n ++ suf) n = true := by
  induction pre with
  | nil =>
    cases n with
    | nil => simpa using seqContains_needle_nil suf
    | cons c cs =>
      have := seqStartsWith_self_append (c :: cs) suf
      simp only [List.nil_append, List.cons_append] at this ⊢
      simp [seqContains, this]
  | cons c cs ih =>
    simp only [List.cons_append, seqContains, Bool.or_eq_true]
    exact Or.inr (by simpa [List.append_assoc] using ih)

lemma strContains_of_split (s sub : String) (pre suf : List Char)
    (h : s.data = pre ++ sub.data ++ suf) : strContains s sub = true := by
  unfold strContains
  rw [h]
  exact seqContains_of_middle pre sub.data suf

/-- C8 (amended): `applyStyleTransfer` always delegates to `modifyImage`
with `preserveStyle` set to `false` (the caller cannot override it), and
the synthesized instruction contains the style name.  When a *nonzero*
intensity `i` is supplied, the instruction also contains `i` followed by
"%"; an explicit intensity of 0 is JS-falsy and is treated exactly like an
absent intensity, so no intensity clause (and no "0%") appears — see the
counterexample `applyStyleTransfer_zero_intensity_no_clause` and C10. -/
theorem applyStyleTransfer_spec (opts : StyleTransferOptions) :
    (applyStyleTransfer opts).preserveStyle = some false ∧
    strContains (applyStyleTransfer opts).instructions opts.style = true ∧
    (∀ i : Int, opts.intensity = some i → i ≠ 0 →
      strContains (applyStyleTransfer opts).instructions (toString i ++ "%") = true) := by
  refine ⟨rfl, ?_, ?_⟩
  · refine strContains_of_split _ _ ("Apply ".data)
      ((" style to this image. ").data ++ (intensityClause opts.intensity).data) ?_
    show (styleTransferInstructions opts.style opts.intensity).data = _
    simp [styleTransferInstructions, String.data_append, List.append_assoc]
  · intro i hi hne
    show strContains (styleTransferInstructions opts.style opts.intensity) _ = true
    rw [hi]
    refine strContains_of_split _ _
      ("Apply ".data ++ opts.style.data ++ (" style to this image. ").data ++ ("Use ").data)
      ((" intensity for the style transfer.").data) ?_
    have hlit : ("% intensity for the style transfer." : String).data
        = ("%" : String).data ++ (" intensity for the style transfer." : String).data := rfl
    simp [styleTransferInstructions, intensityClause, hne, String.data_append,
      List.append_assoc, hlit]

/-- Counterexample to C8 as stated: with intensity supplied as 0 (inside
the documented 0-100 range) the instruction does not contain "0%" — the
intensity clause is dropped because 0 is JS-falsy. -/
theorem applyStyleTransfer_zero_intensity_no_clause :
    (applyStyleTransfer { imageBase64 := "img", style := "cyberpunk", intensity := some 0 }).instructions
      = "Apply cyberpunk style to this image. " ∧
    strContains (applyStyleTransfer
      { imageBase64 := "img", style := "cyberpunk", intensity := some 0 }).instructions
      (toString (0 : Int) ++ "%") = false := by
  exact ⟨rfl, rfl⟩

/-- Witness for the amended C8 at style "cyberpunk", intensity 80. -/
theorem applyStyleTransfer_spec_witness :
    (applyStyleTransfer { imageBase64 := "img", style := "cyberpunk", intensity := some 80 }).preserveStyle
      = some false ∧
    strContains (applyStyleTransfer
      { imageBase64 := "img", style := "cyberpunk", intensity := some 80 }).instructions
      "cyberpunk" = true ∧
    strContains (applyStyleTransfer
      { imageBase64 := "img", style := "cyberpunk", intensity := some 80 }).instructions
      (toString (80 : Int) ++ "%") = true := by
  have h := applyStyleTransfer_spec
    { imageBase64 := "img", style := "cyberpunk", intensity := some 80 }
  exact ⟨h.1, h.2.1, h.2.2 80 rfl (by decide)⟩

/-- C10: An explicit intensity of 0 synthesizes no intensity clause:
the delegated modification request (instruction included) is identical to
the one produced when intensity is absent, even though 0 lies inside the
documented 0-100 range — `options.intensity ? ... : ''` is a JS truthiness
test and 0 is falsy. -/
theorem applyStyleTransfer_zero_eq_absent (img style : String) :
    applyStyleTransfer { imageBase64 := img, style := style, intensity := some 0 }
      = applyStyleTransfer { imageBase64 := img, style := style, intensity := none } := by
  simp [applyStyleTransfer, styleTransferInstructions, intensityClause]

/-- C5: The tool-call handler is a total function into response
envelopes.  Whenever the dispatch layer fails — for any reason the lower
layers produce, including a name outside the five-tool catalogue — the
handler returns the error-flagged envelope carrying "Error: " plus the
failure's message; in particular an unknown tool name yields the
"Unknown tool" envelope rather than an uncaught exception. -/
theorem gateway_catches_all (name : String) (h : ToolHandlers) :
    (∀ msg, dispatchTool name h = Except.error msg →
      handleCallTool name h = errorEnvelope msg ∧ (errorEnvelope msg).isError = true) ∧
    (name ∉ toolCatalogue →
      handleCallTool name h = errorEnvelope ("Unknown tool: " ++ name)) := by
  constructor
  · intro msg hmsg
    refine ⟨?_, rfl⟩
    unfold handleCallTool
    rw [hmsg]
  · intro hname
    simp only [toolCatalogue, List.mem_cons, List.not_mem_nil, or_false, not_or] at hname
    obtain ⟨h1, h2, h3, h4, h5⟩ := hname
    have hd : dispatchTool name h = Except.error ("Unknown tool: " ++ name) := by
      unfold dispatchTool
      rw [if_neg h1, if_neg h2, if_neg h3, if_neg h4, if_neg h5]
    unfold handleCallTool
    rw [hd]

/-- Witness for C5: an invocation naming a tool outside the catalogue gets
the error envelope, whatever the five handlers would have produced. -/
theorem gateway_catches_all_witness :
    handleCallTool "doesNotExist"
      ⟨Except.error "x", Except.error "x", Except.error "x", Except.error "x", Except.error "x"⟩
      = errorEnvelope ("Unknown tool: " ++ "doesNotExist") :=
  (gateway_catches_all "doesNotExist"
    ⟨Except.error "x", Except.error "x", Except.error "x", Except.error "x", Except.error "x"⟩).2
    (by decide)
